import Mathlib

/-!
Verification of the PRReviewer browser extension (content script and background
worker) against its natural-language specification.

The development shallowly embeds the JavaScript source:

* JavaScript values produced by `JSON.parse` are modelled by the inductive
  type `Json`; `JSON.parse` itself is modelled by `Json.parse`, a total
  fuelled parser of the JSON grammar (numbers are modelled as exact
  rationals rather than IEEE doubles, and lone UTF-16 surrogates in `\u`
  escapes, unrepresentable in Lean strings, are mapped to U+FFFD; no claim
  depends on these corners).
* String lengths and `substring` counts are modelled as code-point counts.
* The DOM, the network, and the model endpoint are external: the page is
  modelled by a `PageEnv` giving each DOM-scanning strategy's result, and
  the remote calls by oracles carried in the environment.
* Fallible JavaScript (thrown exceptions) is modelled with `Except`;
  functions that cannot throw are total Lean functions.
-/

/-- JavaScript values arising from `JSON.parse`: `null`, booleans, numbers,
strings, arrays and objects.  The `undefined` value obtained by reading an
absent property is conflated with `null`; the two are observationally equal
in every use the source makes of such reads (strict comparison against a
string literal, truthiness tests, and `Array.isArray`). -/
inductive Json where
  | null : Json
  | bool (b : Bool) : Json
  | num (q : ℚ) : Json
  | str (s : String) : Json
  | arr (elems : List Json) : Json
  | obj (members : List (String × Json)) : Json

/-- The four whitespace characters accepted by the JSON grammar. -/
def isJsonWs (c : Char) : Bool :=
  c = ' ' || c = '\t' || c = '\n' || c = '\r'

/-- Drop leading JSON whitespace. -/
def dropWs (cs : List Char) : List Char :=
  cs.dropWhile isJsonWs

/-- Value of a hexadecimal digit. -/
def hexVal (c : Char) : Option Nat :=
  if '0' ≤ c ∧ c ≤ '9' then some (c.toNat - 48)
  else if 'a' ≤ c ∧ c ≤ 'f' then some (c.toNat - 87)
  else if 'A' ≤ c ∧ c ≤ 'F' then some (c.toNat - 55)
  else none

/-- Single-character JSON string escapes (other than `\u`). -/
def escChar (c : Char) : Option Char :=
  if c = '"' then some '"'
  else if c = '\\' then some '\\'
  else if c = '/' then some '/'
  else if c = 'b' then some (Char.ofNat 8)
  else if c = 'f' then some (Char.ofNat 12)
  else if c = 'n' then some '\n'
  else if c = 'r' then some '\r'
  else if c = 't' then some '\t'
  else none

/-- Body of a JSON string literal, positioned just after the opening quote.
Returns the decoded characters and the input remaining after the closing
quote.  `\uXXXX` escapes are decoded, combining a high/low surrogate pair
into one code point; a lone surrogate becomes U+FFFD (see the header note).
Fuelled; one unit of fuel is spent per consumed character, so the fuel
`cs.length + 1` used at every call site is always sufficient. -/
def parseStringBody : Nat → List Char → Option (List Char × List Char)
  | 0, _ => none
  | _ + 1, [] => none
  | fuel + 1, c :: cs =>
    if c = '"' then some ([], cs)
    else if c = '\\' then
      match cs with
      | 'u' :: h1 :: h2 :: h3 :: h4 :: cs1 =>
        match hexVal h1, hexVal h2, hexVal h3, hexVal h4 with
        | some a, some b, some c2, some d =>
          let code := ((a * 16 + b) * 16 + c2) * 16 + d
          if 0xD800 ≤ code ∧ code ≤ 0xDBFF then
            match cs1 with
            | '\\' :: 'u' :: g1 :: g2 :: g3 :: g4 :: cs2 =>
              match hexVal g1, hexVal g2, hexVal g3, hexVal g4 with
              | some p, some q, some r, some s =>
                let low := ((p * 16 + q) * 16 + r) * 16 + s
                if 0xDC00 ≤ low ∧ low ≤ 0xDFFF then
                  (parseStringBody fuel cs2).map
                    (fun pr => (Char.ofNat (0x10000 + (code - 0xD800) * 0x400 + (low - 0xDC00)) :: pr.1, pr.2))
                else
                  (parseStringBody fuel cs1).map (fun pr => ('�' :: pr.1, pr.2))
              | _, _, _, _ =>
                (parseStringBody fuel cs1).map (fun pr => ('�' :: pr.1, pr.2))
            | _ =>
              (parseStringBody fuel cs1).map (fun pr => ('�' :: pr.1, pr.2))
          else if 0xDC00 ≤ code ∧ code ≤ 0xDFFF then
            (parseStringBody fuel cs1).map (fun pr => ('�' :: pr.1, pr.2))
          else
            (parseStringBody fuel cs1).map (fun pr => (Char.ofNat code :: pr.1, pr.2))
        | _, _, _, _ => none
      | e :: cs1 =>
        match escChar e with
        | some ec => (parseStringBody fuel cs1).map (fun pr => (ec :: pr.1, pr.2))
        | none => none
      | [] => none
    else if c.toNat < 0x20 then none
    else (parseStringBody fuel cs).map (fun pr => (c :: pr.1, pr.2))

/-- Numeric value of a list of decimal digit characters. -/
def digitsToNat (ds : List Char) : Nat :=
  ds.foldl (fun acc c => acc * 10 + (c.toNat - 48)) 0

/-- A JSON number literal: optional minus, integer part without leading
zeros, optional fraction, optional exponent.  The exact rational value is
kept (JavaScript would round to the nearest IEEE double; no claim depends
on the difference). -/
def parseNumber (cs : List Char) : Option (Json × List Char) :=
  let (neg, cs1) : Bool × List Char :=
    match cs with
    | '-' :: r => (true, r)
    | _ => (false, cs)
  let intDigits := cs1.takeWhile Char.isDigit
  let cs2 := cs1.dropWhile Char.isDigit
  if intDigits = [] then none
  else if intDigits.length > 1 ∧ intDigits.head? = some '0' then none
  else
    let (fracDigits, cs3) : List Char × List Char :=
      match cs2 with
      | '.' :: r => (r.takeWhile Char.isDigit, r.dropWhile Char.isDigit)
      | _ => ([], cs2)
    let fracPresent : Bool := match cs2 with | '.' :: _ => true | _ => false
    if fracPresent ∧ fracDigits = [] then none
    else
      let (expOk, expVal, cs4) : Bool × Int × List Char :=
        match cs3 with
        | 'e' :: r | 'E' :: r =>
          let (eneg, r1) : Bool × List Char :=
            match r with
            | '+' :: r2 => (false, r2)
            | '-' :: r2 => (true, r2)
            | _ => (false, r)
          let eds := r1.takeWhile Char.isDigit
          if eds = [] then (false, 0, r1)
          else ((true : Bool), (if eneg then -(digitsToNat eds : Int) else (digitsToNat eds : Int)), r1.dropWhile Char.isDigit)
        | _ => (true, 0, cs3)
      if ¬ expOk then none
      else
        let m : Int := (if neg then -1 else 1) * (digitsToNat (intDigits ++ fracDigits) : Int)
        let e : Int := expVal - (fracDigits.length : Int)
        let q : ℚ := if 0 ≤ e then mkRat (m * (10 : Int) ^ e.toNat) 1 else mkRat m ((10 : Nat) ^ (-e).toNat)
        some (Json.num q, cs4)

/-- What the recursive JSON parser is currently parsing: a value, the
elements of an array (just after `[`), the tail of a non-empty element
list, the members of an object (just after `{`), or the tail of a
non-empty member list. -/
inductive PMode where
  | value | elems | elemsCore | members | membersCore

/-- Result type of each parsing mode. -/
def POut : PMode → Type
  | .value => Json
  | .elems => List Json
  | .elemsCore => List Json
  | .members => List (String × Json)
  | .membersCore => List (String × Json)

/-- The recursive core of the JSON grammar, structurally recursive on fuel
(every recursive call spends one unit, so `3 * (length + 1)` fuel, used by
`Json.parse`, is always sufficient).  `value` dispatches on the first
character; arrays and objects forbid trailing commas; `elemsCore` and
`membersCore` parse comma-separated non-empty tails. -/
def parseP : Nat → (m : PMode) → List Char → Option (POut m × List Char)
  | 0, _, _ => none
  | _ + 1, .value, [] => none
  | fuel + 1, .value, c :: cs =>
    if c = '"' then
      match parseStringBody (cs.length + 1) cs with
      | some (content, r) => some (Json.str (String.mk content), r)
      | none => none
    else if c = '{' then
      match parseP fuel .members (dropWs cs) with
      | some (ms, r) => some (Json.obj ms, r)
      | none => none
    else if c = '[' then
      match parseP fuel .elems (dropWs cs) with
      | some (es, r) => some (Json.arr es, r)
      | none => none
    else if c = 't' then
      match cs with
      | 'r' :: 'u' :: 'e' :: r => some (Json.bool true, r)
      | _ => none
    else if c = 'f' then
      match cs with
      | 'a' :: 'l' :: 's' :: 'e' :: r => some (Json.bool false, r)
      | _ => none
    else if c = 'n' then
      match cs with
      | 'u' :: 'l' :: 'l' :: r => some (Json.null, r)
      | _ => none
    else if c = '-' ∨ c.isDigit then parseNumber (c :: cs)
    else none
  | _ + 1, .elems, ']' :: r => some ([], r)
  | fuel + 1, .elems, cs => parseP fuel .elemsCore cs
  | fuel + 1, .elemsCore, cs =>
    match parseP fuel .value cs with
    | none => none
    | some (v, r1) =>
      match dropWs r1 with
      | ']' :: r2 => some ([v], r2)
      | ',' :: r2 =>
        match parseP fuel .elemsCore (dropWs r2) with
        | some (vs, r3) => some (v :: vs, r3)
        | none => none
      | _ => none
  | _ + 1, .members, '}' :: r => some ([], r)
  | fuel + 1, .members, cs => parseP fuel .membersCore cs
  | fuel + 1, .membersCore, cs =>
    match cs with
    | '"' :: cs1 =>
      match parseStringBody (cs1.length + 1) cs1 with
      | some (key, r1) =>
        match dropWs r1 with
        | ':' :: r2 =>
          match parseP fuel .value (dropWs r2) with
          | some (v, r3) =>
            match dropWs r3 with
            | '}' :: r4 => some ([(String.mk key, v)], r4)
            | ',' :: r4 =>
              match parseP fuel .membersCore (dropWs r4) with
              | some (ms, r5) => some ((String.mk key, v) :: ms, r5)
              | none => none
            | _ => none
          | none => none
        | _ => none
      | none => none
    | _ => none

/-- One JSON value with its remaining input. -/
def parseValue (fuel : Nat) (cs : List Char) : Option (Json × List Char) :=
  parseP fuel .value cs

/-- Model of JavaScript's `JSON.parse`: `some` the parsed value on success,
`none` where `JSON.parse` would throw `SyntaxError`. -/
def Json.parse (s : String) : Option Json :=
  match parseValue (3 * (s.length + 1)) (dropWs s.data) with
  | some (v, r) => if dropWs r = [] then some v else none
  | none => none

/-- Is the value a JavaScript array (`Array.isArray`)? -/
def Json.isArr : Json → Bool
  | .arr _ => true
  | _ => false

/-- Is the value a non-null, non-array object?  This is the source's test
`parsed && typeof parsed === 'object' && !Array.isArray(parsed)`: of the
`JSON.parse` value universe only plain objects satisfy it (`null` fails the
truthiness conjunct, arrays fail the last, primitives fail `typeof`). -/
def Json.isObj : Json → Bool
  | .obj _ => true
  | _ => false

/-- JavaScript truthiness of a `JSON.parse` value. -/
def Json.truthy : Json → Bool
  | .null => false
  | .bool b => b
  | .num q => decide (q ≠ 0)
  | .str s => decide (s ≠ "")
  | .arr _ => true
  | .obj _ => true

/-- Property read `j.k` on a parsed value: the last binding of the key for
objects (`JSON.parse` keeps the last duplicate), otherwise the
`undefined`/`null` conflation (reads on primitives yield `undefined`;
reads on `null` never occur on this helper's call sites — the one place
the source can read a property of `null` is modelled separately, see
`severityOf`). -/
def Json.getField (j : Json) (k : String) : Json :=
  match j with
  | .obj ms => (match (ms.reverse.find? (fun p => p.1 == k)) with
    | some p => p.2
    | none => Json.null)
  | _ => Json.null

/-- Elements of an array value (`[]` for non-arrays; the source only takes
elements of values already known to be arrays). -/
def Json.elems : Json → List Json
  | .arr xs => xs
  | _ => []

/-- `x || null` for a property read: `x` if truthy, else `null`. -/
def jsOrNull (j : Json) : Json :=
  if j.truthy then j else Json.null

/-- The characters removed by JavaScript's `String.prototype.trim`. -/
def jsWsChar (c : Char) : Bool :=
  c = ' ' || c = '\t' || c = '\n' || c = '\r' ||
  c = Char.ofNat 0x0B || c = Char.ofNat 0x0C || c = Char.ofNat 0xA0 ||
  c = Char.ofNat 0x1680 ||
  (Char.ofNat 0x2000 ≤ c && c ≤ Char.ofNat 0x200A) ||
  c = Char.ofNat 0x2028 || c = Char.ofNat 0x2029 ||
  c = Char.ofNat 0x202F || c = Char.ofNat 0x205F ||
  c = Char.ofNat 0x3000 || c = Char.ofNat 0xFEFF

/-- JavaScript `s.trim()`. -/
def jsTrim (s : String) : String :=
  String.mk (((s.data.dropWhile jsWsChar).reverse.dropWhile jsWsChar).reverse)

/-- JavaScript `s.substring(0, n)` (counting code points, see header). -/
def substr0 (s : String) (n : Nat) : String :=
  String.mk (s.data.take n)

/-- JavaScript `s.toLowerCase()` (ASCII-adequate; the source applies it to
file paths before extension tests). -/
def jsToLower (s : String) : String :=
  String.mk (s.data.map Char.toLower)

/-- JavaScript `s.endsWith(suffix)`. -/
def strEndsWith (s suffix : String) : Bool :=
  suffix.data.isSuffixOf s.data

/-- Drop a single leading newline if present (the `\n?` of the fence
regexes). -/
def dropOneNl : List Char → List Char
  | '\n' :: r => r
  | r => r

/-- `replace(/^```json\n?/i, '')`: case-insensitively strip a leading
` ```json ` fence marker and one following newline. -/
def stripStartJsonFence (cs : List Char) : List Char :=
  if (cs.take 7).map Char.toLower = "```json".data then dropOneNl (cs.drop 7) else cs

/-- `replace(/^```\n?/, '')`: strip a leading ` ``` ` and one following
newline (a language tag other than `json` is left in place, as in the
source). -/
def stripStartPlainFence (cs : List Char) : List Char :=
  if cs.take 3 = "```".data then dropOneNl (cs.drop 3) else cs

/-- `replace(/\n?```$/, '')`: strip a trailing ` ``` ` and one preceding
newline. -/
def stripEndFence (cs : List Char) : List Char :=
  if cs.reverse.take 3 = "```".data then (dropOneNl (cs.reverse.drop 3)).reverse else cs

/-- The fence clean-up of `parseReviewResponse` (applied after `trim`):
strip a `json`-tagged start fence, an end fence, a plain start fence, and
an end fence again, in the source's order. -/
def cleanFences (s : String) : String :=
  String.mk (stripEndFence (stripStartPlainFence (stripEndFence (stripStartJsonFence s.data))))

/-- The match of the greedy regex `/\x7bopenC\x7d[\s\S]*\x7bcloseC\x7d/`:
the span from the first `openC` to the last `closeC` after it, or `none`
when no such span exists. -/
def spanFrom (openC closeC : Char) (cs : List Char) : Option (List Char) :=
  match cs.dropWhile (fun c => c ≠ openC) with
  | [] => none
  | c :: rest =>
    match rest.reverse.dropWhile (fun ch => ch ≠ closeC) with
    | [] => none
    | r => some (c :: r.reverse)

/-- Left brace character (written by code point to keep string literals
brace-free). -/
def lbrace : Char := Char.ofNat 123

/-- Right brace character. -/
def rbrace : Char := Char.ofNat 125

/-- The typed result of the response parser: the `summary` value (or
`null`) and the `issues` value. -/
structure ReviewResult where
  summary : Json
  issues : Json

/-- Which attempt of `parseReviewResponse` produced the result: the strict
parse yielding an object / an array / another value, the first-object-span
retry, the first-array-span retry, or the final `\x7bsummary: null, issues:
[]\x7d` fallback.  The tag is ghost instrumentation recording the code path
taken; the pair's first component is the value the JavaScript returns. -/
inductive ParseStep where
  | strictObj | strictArr | strictOther | objSpan | arrSpan | fallback
  deriving DecidableEq

/-- The array-span recovery (`response.match(/\[[\s\S]*\]/)` and a JSON
retry), reached when the strict parse and the object-span retry both
failed. -/
def arrSpanAttempt (response : String) : ReviewResult × ParseStep :=
  match spanFrom '[' ']' response.data with
  | some span =>
    match Json.parse (String.mk span) with
    | some parsed => ({ summary := Json.null, issues := parsed }, .arrSpan)
    | none => ({ summary := Json.null, issues := Json.arr [] }, .fallback)
  | none => ({ summary := Json.null, issues := Json.arr [] }, .fallback)

/-- `parseReviewResponse` with its code-path tag (the source function is
the first component, see `parseReviewResponse`).  Mirrors the source: trim
and strip code fences, `JSON.parse`; on an object take `summary || null`
and `issues` if an array; on an array treat it as the legacy plain issue
list; on another value return the empty result; on a parse failure retry
on the first `\x7b...\x7d` span of the raw response, then on the first
`[...]` span; finally fall back to the empty result. -/
def parseReviewResponseT (response : String) : ReviewResult × ParseStep :=
  let cleaned := cleanFences (jsTrim response)
  match Json.parse cleaned with
  | some parsed =>
    if parsed.isObj then
      ({ summary := jsOrNull (parsed.getField "summary")
         issues := if (parsed.getField "issues").isArr then parsed.getField "issues" else Json.arr [] },
       .strictObj)
    else if parsed.isArr then
      ({ summary := Json.null, issues := parsed }, .strictArr)
    else
      ({ summary := Json.null, issues := Json.arr [] }, .strictOther)
  | none =>
    match spanFrom lbrace rbrace response.data with
    | some span =>
      match Json.parse (String.mk span) with
      | some parsed =>
        ({ summary := jsOrNull (parsed.getField "summary")
           issues := if (parsed.getField "issues").isArr then parsed.getField "issues" else Json.arr [] },
         .objSpan)
      | none => arrSpanAttempt response
    | none => arrSpanAttempt response

/-- The source's `parseReviewResponse`: raw model text to `ReviewResult`. -/
def parseReviewResponse (response : String) : ReviewResult :=
  (parseReviewResponseT response).1

/-- One extracted line, as stored in a record's `additions`/`deletions`. -/
structure DiffLine where
  line : Nat
  content : String

/-- A change record, the union of the object shapes the strategies push
(DOM records carry `content`/`additions`; API records carry
`originalContent`/`newContent` and `isApiDiff`; the selection record
carries `isSelection`).  Fields a strategy does not set keep their
defaults, modelling the absent JavaScript properties.  The DOM `element`
reference is dropped: no claim concerns inline placement. -/
structure ChangeRecord where
  filename : String := ""
  content : String := ""
  originalContent : String := ""
  newContent : String := ""
  additions : Option (List DiffLine) := none
  deletions : Option (List DiffLine) := none
  hasNewCode : Bool := false
  changeType : String := ""
  isApiDiff : Bool := false
  isSelection : Bool := false

/-- One entry of the iteration's change list (`change.item || change` is
flattened into the entry: `isFolder` and `path` are the item's fields). -/
structure ChangeEntry where
  isFolder : Bool := false
  path : Option String := none
  changeType : Option String := none

/-- `x || d` for an optional string: the string when present and non-empty
(JavaScript truthiness), else the default. -/
def jsOrStr (o : Option String) (d : String) : String :=
  match o with
  | some s => if s = "" then d else s
  | none => d

/-- `MAX_FILE_SIZE` of `extractFromADOApi`. -/
def MAX_FILE_SIZE : Nat := 50000

/-- `MAX_FILES` of `extractFromADOApi`. -/
def MAX_FILES : Nat := 15

/-- The fixed binary-extension skip list of `extractFromADOApi`. -/
def binaryExtensions : List String :=
  [".png", ".jpg", ".jpeg", ".gif", ".ico", ".pdf", ".zip", ".dll", ".exe",
   ".woff", ".woff2", ".ttf", ".svg"]

/-- The per-file loop of `extractFromADOApi` (source step 3): for each
change, stop once `MAX_FILES` records exist, skip folders, `delete`
changes, entries without a path, and binary extensions; fetch new content
at the source commit (skipping files above `MAX_FILE_SIZE`), fetch
original content at the comparison commit unless the change is an `add`,
and emit a record only when new content is non-empty.  `fetch` models
`fetchFileContentByPath`, which returns `''` on any failure. -/
def adoChangesLoop (fetch : String → String → String)
    (sourceCommit targetCommit : Option String) :
    List ChangeEntry → List ChangeRecord → List ChangeRecord
  | [], diffs => diffs
  | change :: rest, diffs =>
    if diffs.length ≥ MAX_FILES then diffs
    else if change.isFolder then adoChangesLoop fetch sourceCommit targetCommit rest diffs
    else
      let changeType := jsOrStr change.changeType "edit"
      if changeType = "delete" then adoChangesLoop fetch sourceCommit targetCommit rest diffs
      else
        match change.path with
        | none => adoChangesLoop fetch sourceCommit targetCommit rest diffs
        | some filePath =>
          if filePath = "" then adoChangesLoop fetch sourceCommit targetCommit rest diffs
          else if binaryExtensions.any (fun ext => strEndsWith (jsToLower filePath) ext) then
            adoChangesLoop fetch sourceCommit targetCommit rest diffs
          else
            let newContentOpt : Option String :=
              match sourceCommit with
              | some sc =>
                let nc := fetch filePath sc
                if nc.length > MAX_FILE_SIZE then none else some nc
              | none => some ""
            match newContentOpt with
            | none => adoChangesLoop fetch sourceCommit targetCommit rest diffs
            | some newContent =>
              let originalContent :=
                match targetCommit with
                | some tc => if changeType ≠ "add" then fetch filePath tc else ""
                | none => ""
              if newContent ≠ "" then
                adoChangesLoop fetch sourceCommit targetCommit rest
                  (diffs ++ [{ filename := filePath, originalContent := originalContent,
                               newContent := newContent, changeType := changeType,
                               isApiDiff := true }])
              else adoChangesLoop fetch sourceCommit targetCommit rest diffs

/-- The page and network environment the content script runs against.  The
six DOM-scanning strategies read the rendered page, an external surface;
each is modelled by its result on the current page.  The remote API
strategy is modelled down to its per-file loop: `apiOutcome` is `none` on
any of the source's early-empty paths (URL not matching either grammar,
a non-success iteration or change-list response, or an empty iteration
list), and otherwise carries the extracted source/target commit ids and
the change list; `fetchContent` maps a path and commit id to the fetched
content (`''` on failure), as `fetchFileContentByPath` does. -/
structure PageEnv where
  selection : String := ""
  apiOutcome : Option (Option String × Option String × List ChangeEntry) := none
  fetchContent : String → String → String := fun _ _ => ""
  sideBySideDiffs : List ChangeRecord := []
  modernViewerDiffs : List ChangeRecord := []
  fileDiffContainerDiffs : List ChangeRecord := []
  monacoEditorDiffs : List ChangeRecord := []
  genericCodeBlockDiffs : List ChangeRecord := []
  visibleDiffAreaDiffs : List ChangeRecord := []

/-- The source's `extractFromADOApi`: empty on any early failure, else the
per-file loop over the change list starting from an empty accumulator. -/
def extractFromADOApi (env : PageEnv) : List ChangeRecord :=
  match env.apiOutcome with
  | none => []
  | some (sourceCommit, targetCommit, changesList) =>
    adoChangesLoop env.fetchContent sourceCommit targetCommit changesList []

/-- The extraction strategies, in the source's order of appearance in
`extractDiffs`. -/
inductive Strat where
  | selection | remoteApi | sideBySide | modernViewer | fileDiffContainers
  | monacoEditor | genericCodeBlocks | visibleDiffArea
  deriving DecidableEq

/-- Scope resolution applied to each winning strategy's output:
`return type === 'current' ? [extractedDiffs[0]] : extractedDiffs` (the
guard ensures the list is non-empty, so `take 1` is `[extractedDiffs[0]]`). -/
def scopeResolve (ty : String) (diffs : List ChangeRecord) : List ChangeRecord :=
  if ty = "current" then diffs.take 1 else diffs

/-- The record pushed for a non-empty text selection. -/
def selectionRecord (selection : String) : ChangeRecord :=
  { filename := "Selected Code", content := selection, isSelection := true }

/-- The source's `extractDiffs`, with a ghost trace of the strategies whose
code ran (the pair's first component is the value the JavaScript returns).
Mirrors the source: for scope `selected` a non-empty selection is returned
at once; the remote API strategy runs only when scope is not `selected`;
then the six DOM strategies run in order, the first non-empty output being
returned through `scopeResolve`; the final fallback is the empty list.
The initial `waitForElement` and settle delay resolve without affecting
the returned value and are not modelled. -/
def extractDiffsT (ty : String) (env : PageEnv) : List ChangeRecord × List Strat :=
  if ty = "selected" ∧ env.selection ≠ "" ∧ jsTrim env.selection ≠ "" then
    ([selectionRecord env.selection], [Strat.selection])
  else
    let t0 : List Strat := if ty = "selected" then [Strat.selection] else []
    let t1 : List Strat := if ty ≠ "selected" then t0 ++ [Strat.remoteApi] else t0
    let api : List ChangeRecord := if ty ≠ "selected" then extractFromADOApi env else []
    if api.length > 0 then (scopeResolve ty api, t1)
    else
      let t2 := t1 ++ [Strat.sideBySide]
      if env.sideBySideDiffs.length > 0 then (scopeResolve ty env.sideBySideDiffs, t2)
      else
        let t3 := t2 ++ [Strat.modernViewer]
        if env.modernViewerDiffs.length > 0 then (scopeResolve ty env.modernViewerDiffs, t3)
        else
          let t4 := t3 ++ [Strat.fileDiffContainers]
          if env.fileDiffContainerDiffs.length > 0 then (scopeResolve ty env.fileDiffContainerDiffs, t4)
          else
            let t5 := t4 ++ [Strat.monacoEditor]
            if env.monacoEditorDiffs.length > 0 then (scopeResolve ty env.monacoEditorDiffs, t5)
            else
              let t6 := t5 ++ [Strat.genericCodeBlocks]
              if env.genericCodeBlockDiffs.length > 0 then (scopeResolve ty env.genericCodeBlockDiffs, t6)
              else
                let t7 := t6 ++ [Strat.visibleDiffArea]
                if env.visibleDiffAreaDiffs.length > 0 then (scopeResolve ty env.visibleDiffAreaDiffs, t7)
                else ([], t7)

/-- The source's `extractDiffs` (value component). -/
def extractDiffs (ty : String) (env : PageEnv) : List ChangeRecord :=
  (extractDiffsT ty env).1

example : Json.parse "42" = some (Json.num 42) := by rfl
example : Json.parse " [1, 2] " = some (Json.arr [Json.num 1, Json.num 2]) := by rfl
example : Json.parse "\x7b\"a\": null\x7d" = some (Json.obj [("a", Json.null)]) := by rfl
example : Json.parse "\x7b" = none := by rfl
example : Json.parse "[1,]" = none := by rfl
example : Json.parse "tru" = none := by rfl
example : Json.parse "\"a\\nb\"" = some (Json.str "a\nb") := by rfl
example : Json.parse "-2.5e1" = some (Json.num (-25)) := by rfl
example : Json.parse "" = none := by rfl

example :
    parseReviewResponseT "```json\n\x7b\"summary\":null,\"issues\":[]\x7d\n```" =
      ({ summary := Json.null, issues := Json.arr [] }, .strictObj) := by rfl

example :
    parseReviewResponseT "Here you go: [\x7b\"line\":3,\"severity\":\"warning\"\x7d] Thanks!" =
      ({ summary := Json.null, issues := Json.arr [] }, .objSpan) := by rfl

example :
    parseReviewResponseT "Here you go: [\x7b\"line\":3\x7d,\x7b\"line\":4\x7d] Thanks!" =
      ({ summary := Json.null,
         issues := Json.arr [Json.obj [("line", Json.num 3)], Json.obj [("line", Json.num 4)]] },
       .arrSpan) := by rfl

example : parseReviewResponseT "" = ({ summary := Json.null, issues := Json.arr [] }, .fallback) := by rfl

example : parseReviewResponseT "no json here" = ({ summary := Json.null, issues := Json.arr [] }, .fallback) := by rfl

/-- The user's focus-area flags (`settings.focusAreas`). -/
structure FocusAreas where
  bugs : Bool := false
  security : Bool := false
  performance : Bool := false
  style : Bool := false
  naming : Bool := false
  docs : Bool := false
  tests : Bool := false

/-- The settings captured at the start of a review. -/
structure ReviewSettings where
  apiKey : String := ""
  model : String := ""
  reviewDepth : String := ""
  focusAreas : FocusAreas := {}

/-- The focus-area phrases `buildReviewPrompt` collects, in source order. -/
def focusAreaList (fa : FocusAreas) : List String :=
  (if fa.bugs then ["bugs, logic errors, and potential runtime issues"] else []) ++
  (if fa.security then ["security vulnerabilities (SQL injection, XSS, auth issues, etc.)"] else []) ++
  (if fa.performance then ["performance issues and inefficiencies"] else []) ++
  (if fa.style then ["code style and best practices"] else []) ++
  (if fa.naming then ["naming conventions and clarity"] else []) ++
  (if fa.docs then ["missing documentation and comments"] else []) ++
  (if fa.tests then ["test coverage concerns"] else [])

/-- `depthInstructions[settings.reviewDepth] || depthInstructions.standard`
(own-property lookup with the standard instruction as default). -/
def depthInstructionFor (d : String) : String :=
  if d = "quick" then "Focus only on critical issues. Be brief."
  else if d = "standard" then "Provide a balanced review covering important issues."
  else if d = "thorough" then "Do an in-depth analysis. Check every detail. Be comprehensive."
  else "Provide a balanced review covering important issues."

/-- Literal segment 0 of the full-file (API) prompt template, between its interpolation points. -/
def apiPromptSeg0 : String :=
  "You are an expert code reviewer performing a Pull Request review.\n      \nFILE: "

/-- Literal segment 1 of the full-file (API) prompt template, between its interpolation points. -/
def apiPromptSeg1 : String :=
  "\nCHANGE TYPE: "

/-- Literal segment 2 of the full-file (API) prompt template, between its interpolation points. -/
def apiPromptSeg2 : String :=
  "\n\nI will provide the ORIGINAL code and the NEW code.\n" ++
  "1. Identify the changes between the two versions.\n2. Review ONLY the NEW/CHANGED code.\n\n" ++
  "ORIGINAL CODE:\n```\n"

/-- Literal segment 3 of the full-file (API) prompt template, between its interpolation points. -/
def apiPromptSeg3 : String :=
  "\n```\n\nNEW CODE:\n```\n"

/-- Literal segment 4 of the full-file (API) prompt template, between its interpolation points. -/
def apiPromptSeg4 : String :=
  "\n```\n\nCRITICAL REVIEW REQUIREMENTS:\n" ++
  "1. Review ONLY the new/changed code - ignore unchanged code\n2. "

/-- Literal segment 5 of the full-file (API) prompt template, between its interpolation points. -/
def apiPromptSeg5 : String :=
  "\n3. Focus areas: "

/-- Literal segment 6 of the full-file (API) prompt template, between its interpolation points. -/
def apiPromptSeg6 : String :=
  "\n\nFIRST: Provide a brief SUMMARY of what this change does (2-3 sentences max).\n\n" ++
  "CONTEXTUAL ANALYSIS - Flag these issues:\n" ++
  "- **Unused exports**: If a new function/class/constant is exported, flag it as needing to be consumed somewhere in the PR\n" ++
  "- **Incomplete implementations**: New functions that are declared but might not be called/used\n" ++
  "- **Missing imports**: If new code references something that appears to need importing\n" ++
  "- **Orphaned code**: New code that doesn't seem to integrate with anything\n" ++
  "- **API contracts**: New exported functions should have clear contracts (types, docs)\n" ++
  "- **Dead code**: New code paths that can never be reached\n" ++
  "- **Missing error handling**: New async functions without try-catch, new promises without .catch()\n" ++
  "- **Unfinished TODOs**: New TODO/FIXME comments that should be addressed before merge\n\n" ++
  "PR-SPECIFIC CHECKS:\n" ++
  "- If a new function is exported, ask: \"Is this export consumed elsewhere in the PR?\"\n" ++
  "- If a new interface/type is defined, ask: \"Is this type used in the PR?\"\n" ++
  "- If a new constant is exported, ask: \"Where is this constant used?\"\n" ++
  "- Flag any new public API that lacks documentation\n\n" ++
  "RESPONSE FORMAT (JSON object with summary and issues):\n\x7b\n  \"summary\": \x7b\n" ++
  "    \"description\": \"<2-3 sentence summary of what this code change does>\",\n" ++
  "    \"mainChanges\": [\"<change 1>\", \"<change 2>\", ...],\n" ++
  "    \"newExports\": [\"<list of new exported functions/classes/constants>\"],\n" ++
  "    \"riskLevel\": \"low\" | \"medium\" | \"high\"\n  \x7d,\n  \"issues\": [\n    \x7b\n" ++
  "      \"line\": <line number or range like \"10-15\">,\n" ++
  "      \"severity\": \"critical\" | \"warning\" | \"suggestion\",\n" ++
  "      \"category\": \"bug\" | \"security\" | \"performance\" | \"style\" | \"unused-export\" | \"incomplete\" | \"documentation\",\n" ++
  "      \"title\": \"<brief title>\",\n      \"description\": \"<detailed explanation>\",\n" ++
  "      \"suggestion\": \"<how to fix, include code if helpful>\"\n    \x7d\n  ]\n\x7d\n\n" ++
  "If no issues found, return: \x7b\"summary\": \x7b...\x7d, \"issues\": []\x7d\n\n" ++
  "IMPORTANT: Return ONLY valid JSON object, no markdown or extra text."

/-- Literal segment 0 of the addition-only prompt template, between its interpolation points. -/
def addPromptSeg0 : String :=
  "You are an expert code reviewer performing a Pull Request review. Review ONLY the NEW/CHANGED CODE below.\n" ++
  "\nFILE: "

/-- Literal segment 1 of the addition-only prompt template, between its interpolation points. -/
def addPromptSeg1 : String :=
  "\nLINES ADDED: "

/-- Literal segment 2 of the addition-only prompt template, between its interpolation points. -/
def addPromptSeg2 : String :=
  "\n\nNEW/CHANGED CODE (review ONLY this - these are the additions in the PR):\n```\n"

/-- Literal segment 3 of the addition-only prompt template, between its interpolation points. -/
def addPromptSeg3 : String :=
  "\n```\n\nCRITICAL REVIEW REQUIREMENTS:\n" ++
  "1. Review ONLY the new/changed code shown above - ignore any existing code\n2. "

/-- Literal segment 4 of the addition-only prompt template, between its interpolation points. -/
def addPromptSeg4 : String :=
  "\n3. Focus areas: "

/-- Literal segment 5 of the addition-only prompt template, between its interpolation points. -/
def addPromptSeg5 : String :=
  "\n\nFIRST: Provide a brief SUMMARY of what this change does (2-3 sentences max).\n\n" ++
  "CONTEXTUAL ANALYSIS - Flag these issues:\n" ++
  "- **Unused exports**: If a new function/class/constant is exported, flag it as needing to be consumed somewhere in the PR\n" ++
  "- **Incomplete implementations**: New functions that are declared but might not be called/used\n" ++
  "- **Missing imports**: If new code references something that appears to need importing\n" ++
  "- **Orphaned code**: New code that doesn't seem to integrate with anything\n" ++
  "- **API contracts**: New exported functions should have clear contracts (types, docs)\n" ++
  "- **Dead code**: New code paths that can never be reached\n" ++
  "- **Missing error handling**: New async functions without try-catch, new promises without .catch()\n" ++
  "- **Unfinished TODOs**: New TODO/FIXME comments that should be addressed before merge\n\n" ++
  "PR-SPECIFIC CHECKS:\n" ++
  "- If a new function is exported, ask: \"Is this export consumed elsewhere in the PR?\"\n" ++
  "- If a new interface/type is defined, ask: \"Is this type used in the PR?\"\n" ++
  "- If a new constant is exported, ask: \"Where is this constant used?\"\n" ++
  "- Flag any new public API that lacks documentation\n\n" ++
  "RESPONSE FORMAT (JSON object with summary and issues):\n\x7b\n  \"summary\": \x7b\n" ++
  "    \"description\": \"<2-3 sentence summary of what this code change does>\",\n" ++
  "    \"mainChanges\": [\"<change 1>\", \"<change 2>\", ...],\n" ++
  "    \"newExports\": [\"<list of new exported functions/classes/constants>\"],\n" ++
  "    \"riskLevel\": \"low\" | \"medium\" | \"high\"\n  \x7d,\n  \"issues\": [\n    \x7b\n" ++
  "      \"line\": <line number or range like \"10-15\">,\n" ++
  "      \"severity\": \"critical\" | \"warning\" | \"suggestion\",\n" ++
  "      \"category\": \"bug\" | \"security\" | \"performance\" | \"style\" | \"unused-export\" | \"incomplete\" | \"documentation\",\n" ++
  "      \"title\": \"<brief title>\",\n      \"description\": \"<detailed explanation>\",\n" ++
  "      \"suggestion\": \"<how to fix, include code if helpful>\"\n    \x7d\n  ]\n\x7d\n\n" ++
  "If no issues found, return: \x7b\"summary\": \x7b...\x7d, \"issues\": []\x7d\n\n" ++
  "IMPORTANT: Return ONLY valid JSON object, no markdown or extra text."


/-- The source's `buildReviewPrompt`: a pure function from a change record
and the settings to the instruction text.  API-sourced records use the
full-file template over `originalContent`/`newContent` (each truncated to
20000); all other records use the addition-only template over the
newline-joined `additions` contents when `additions` is present and
non-empty, else the raw `content`, truncated to 15000. -/
def buildReviewPrompt (diff : ChangeRecord) (settings : ReviewSettings) : String :=
  let focusAreas := String.intercalate ", " (focusAreaList settings.focusAreas)
  let depth := depthInstructionFor settings.reviewDepth
  if diff.isApiDiff then
    apiPromptSeg0 ++ diff.filename ++ apiPromptSeg1 ++ diff.changeType ++ apiPromptSeg2 ++
      substr0 diff.originalContent 20000 ++ apiPromptSeg3 ++ substr0 diff.newContent 20000 ++
      apiPromptSeg4 ++ depth ++ apiPromptSeg5 ++ focusAreas ++ apiPromptSeg6
  else
    let codeToReview :=
      match diff.additions with
      | some adds => if adds.length > 0 then String.intercalate "\n" (adds.map (fun a => a.content)) else diff.content
      | none => diff.content
    let additionsCount : Nat :=
      match diff.additions with
      | some adds => adds.length
      | none => 0
    addPromptSeg0 ++ diff.filename ++ addPromptSeg1 ++ toString additionsCount ++ addPromptSeg2 ++
      substr0 codeToReview 15000 ++ addPromptSeg3 ++ depth ++ addPromptSeg4 ++ focusAreas ++ addPromptSeg5

/-- The persisted `reviewStats` record. -/
structure ReviewStats where
  files : Nat := 0
  critical : Nat := 0
  warnings : Nat := 0
  suggestions : Nat := 0

/-- The reply `handleReview` resolves with:
`\x7b success, error?, issueCount? \x7d`. -/
structure HandlerResult where
  success : Bool
  error : Option String := none
  issueCount : Option Nat := none

/-- The content script's mutable state and its observable effects: the
module-level `isReviewing` and `currentSettings`, the persisted
`reviewStats` (`chrome.storage.local`), the panel entries appended by
`displayIssues` (summary and issues per file, DOM details elided), and the
notifications shown so far (the DOM keeps only the latest; the list records
the emission history). -/
structure ScriptState where
  isReviewing : Bool := false
  currentSettings : Option ReviewSettings := none
  reviewStats : Option ReviewStats := none
  displayed : List (String × ReviewResult) := []
  notifications : List String := []

/-- `showNotification(msg, ...)`. -/
def pushNote (st : ScriptState) (msg : String) : ScriptState :=
  { st with notifications := st.notifications ++ [msg] }

/-- `displayIssues(diff, reviewResult)` (panel append; rendering details are
presentation, outside the claims). -/
def displayFor (st : ScriptState) (filename : String) (r : ReviewResult) : ScriptState :=
  { st with displayed := st.displayed ++ [(filename, r)] }

/-- The environment of one review pass: the page (for `extractDiffs`) and
the remote model endpoint.  `modelCall` maps a prompt to the response text
`callGeminiAPI` resolves with, or to the message of the error it throws
(non-success HTTP status or transport failure). -/
structure Env where
  page : PageEnv
  modelCall : String → Except String String

/-- `issue.severity`: a property read on an arbitrary array element.  On
`null` (and `undefined`, conflated) JavaScript throws
`TypeError: Cannot read properties of null (reading 'severity')`; on any
other value the read yields the property (or `undefined`, modelled `null`,
for objects without it and for primitives). -/
def severityOf : Json → Except Unit Json
  | Json.null => Except.error ()
  | j => Except.ok (j.getField "severity")

/-- Strict equality `j === 'lit'` of a parsed value against a string
literal. -/
def jsonStrEq (j : Json) (lit : String) : Bool :=
  match j with
  | Json.str t => t = lit
  | _ => false

/-- The `issues.forEach` severity tally of `handleReview`: `critical` for
severity `=== 'critical'`, `warnings` for `=== 'warning'`, `suggestions`
otherwise; reading `severity` off a `null` element throws (`Except.error`),
aborting the tally as the exception aborts the pass. -/
def countSeverities : ReviewStats → List Json → Except Unit ReviewStats
  | stats, [] => Except.ok stats
  | stats, issue :: rest =>
    match severityOf issue with
    | Except.error e => Except.error e
    | Except.ok sev =>
      let stats' :=
        if jsonStrEq sev "critical" then { stats with critical := stats.critical + 1 }
        else if jsonStrEq sev "warning" then { stats with warnings := stats.warnings + 1 }
        else { stats with suggestions := stats.suggestions + 1 }
      countSeverities stats' rest

/-- The stand-in for the engine's `TypeError` message surfaced when an
issue element is `null` (the engine-specific quoting is elided). -/
def typeErrorMessage : String := "Cannot read properties of null (reading severity)"

/-- The `for (const diff of diffs)` body of `handleReview`, sequentially:
build the prompt, call the model (`reviewDiff` rethrows its failure),
parse the response, and when the result has a truthy summary or a
non-empty issue list, add to the running total, tally severities and
render.  An exception (model failure or the severity `TypeError`) carries
the state at the throw point out to `handleReview`'s catch. -/
def reviewLoop (env : Env) (settings : ReviewSettings) :
    List ChangeRecord → ReviewStats → Nat → ScriptState →
    Except (String × ScriptState) (ReviewStats × Nat × ScriptState)
  | [], stats, totalIssues, st => Except.ok (stats, totalIssues, st)
  | diff :: rest, stats, totalIssues, st =>
    match env.modelCall (buildReviewPrompt diff settings) with
    | Except.error e => Except.error (e, st)
    | Except.ok response =>
      let reviewResult := parseReviewResponse response
      let issues := if reviewResult.issues.truthy then reviewResult.issues else Json.arr []
      if reviewResult.summary.truthy ∨ issues.elems.length > 0 then
        let totalIssues := totalIssues + issues.elems.length
        match countSeverities stats issues.elems with
        | Except.error _ => Except.error (typeErrorMessage, st)
        | Except.ok stats' =>
          reviewLoop env settings rest stats' totalIssues (displayFor st diff.filename reviewResult)
      else reviewLoop env settings rest stats totalIssues st

/-- The source's `handleReview`: reject when a review is already in flight;
otherwise set the busy flag and the captured settings, extract, run the
loop, persist the stats and announce on success, surface the error message
on a throw, and clear the busy flag on every exit path (`finally`). -/
def handleReview (env : Env) (ty : String) (settings : ReviewSettings) (st : ScriptState) :
    HandlerResult × ScriptState :=
  if st.isReviewing then
    ({ success := false, error := some "Review already in progress" }, st)
  else
    let st := { st with isReviewing := true, currentSettings := some settings }
    let st := pushNote st "🔍 Starting AI code review..."
    let diffs := extractDiffs ty env.page
    if diffs.length = 0 then
      ({ success := false, error := some "No code changes found to review" },
       { st with isReviewing := false })
    else
      let st := pushNote st ("📝 Reviewing " ++ toString diffs.length ++ " file(s)...")
      let stats0 : ReviewStats := { files := diffs.length }
      match reviewLoop env settings diffs stats0 0 st with
      | Except.error (msg, st1) =>
        let st1 := pushNote st1 ("❌ Review failed: " ++ msg)
        ({ success := false, error := some msg }, { st1 with isReviewing := false })
      | Except.ok (stats, totalIssues, st1) =>
        let st1 := { st1 with reviewStats := some stats }
        let st1 := pushNote st1 ("✅ Review complete! Found " ++ toString totalIssues ++ " issue(s)")
        ({ success := true, issueCount := some totalIssues }, { st1 with isReviewing := false })

/-! ## Helper lemmas -/

/-- The head surviving `dropWhile` falsifies the predicate. -/
theorem dropWhile_head_false (p : Char → Bool) (l : List Char) (c : Char) (r : List Char)
    (h : l.dropWhile p = c :: r) : p c = false := by
  have h2 := List.head?_dropWhile_not p l
  rw [h] at h2
  simpa using h2

/-- A successful `spanFrom` match starts with the opening character. -/
theorem spanFrom_shape (oc cc : Char) (cs span : List Char)
    (h : spanFrom oc cc cs = some span) : ∃ tail, span = oc :: tail := by
  unfold spanFrom at h
  cases hdw : cs.dropWhile (fun c => c ≠ oc) with
  | nil => rw [hdw] at h; simp at h
  | cons c rest =>
    rw [hdw] at h
    dsimp only at h
    have hc := dropWhile_head_false _ _ _ _ hdw
    have hco : c = oc := by simpa using hc
    cases hr : rest.reverse.dropWhile (fun ch => ch ≠ cc) with
    | nil => rw [hr] at h; simp at h
    | cons d ds =>
      rw [hr] at h
      simp only [Option.some.injEq] at h
      subst hco
      exact ⟨(d :: ds).reverse, h.symm⟩

/-- A value parsed from input beginning with `[` is an array. -/
theorem parseValue_lbracket_isArr (fuel : Nat) (cs rest : List Char) (v : Json)
    (h : parseValue fuel ('[' :: cs) = some (v, rest)) : v.isArr = true := by
  cases fuel with
  | zero =>
    rw [show parseValue 0 ('[' :: cs) = none from rfl] at h
    exact Option.noConfusion h
  | succ k =>
    rw [show parseValue (k + 1) ('[' :: cs) =
          (match parseP k .elems (dropWs cs) with
           | some (es, r) => some (Json.arr es, r)
           | none => none) from rfl] at h
    cases hm : parseP k .elems (dropWs cs) with
    | none => rw [hm] at h; exact Option.noConfusion h
    | some pr =>
      obtain ⟨es, r⟩ := pr
      rw [hm] at h
      simp only [Option.some.injEq, Prod.mk.injEq] at h
      rw [← h.1]
      rfl

/-- `Json.parse` of a string whose text begins with `[` yields an array. -/
theorem Json_parse_bracket_isArr (s : String) (tail : List Char) (v : Json)
    (hd : s.data = '[' :: tail) (hp : Json.parse s = some v) : v.isArr = true := by
  unfold Json.parse at hp
  rw [hd, show dropWs ('[' :: tail) = '[' :: tail from rfl] at hp
  cases hpv : parseValue (3 * (s.length + 1)) ('[' :: tail) with
  | none => rw [hpv] at hp; simp at hp
  | some pr =>
    obtain ⟨w, r⟩ := pr
    rw [hpv] at hp
    dsimp only at hp
    by_cases hr0 : dropWs r = []
    · rw [if_pos hr0] at hp
      cases hp
      exact parseValue_lbracket_isArr _ _ _ _ hpv
    · rw [if_neg hr0] at hp
      exact Option.noConfusion hp

/-- `x || null` is `null` or truthy. -/
theorem jsOrNull_spec (j : Json) : jsOrNull j = Json.null ∨ (jsOrNull j).truthy = true := by
  unfold jsOrNull
  split
  · right; assumption
  · left; rfl

/-- The `issues` shape coercion always yields an array. -/
theorem issuesCoerce_isArr (j : Json) : (if j.isArr then j else Json.arr []).isArr = true := by
  split
  · assumption
  · rfl

/-! ## C6 — busy guard -/

/-- C6: whenever a review pass is in flight (`isReviewing` set), a second
call to `handleReview` returns `\x7b success: false, error: "Review already
in progress" \x7d` at once — independently of the page, the model endpoint,
the scope and the settings — and leaves the whole state (persisted
`reviewStats` included) unchanged. -/
theorem handleReview_busy_rejected (env : Env) (ty : String) (settings : ReviewSettings)
    (st : ScriptState) (h : st.isReviewing = true) :
    handleReview env ty settings st =
      ({ success := false, error := some "Review already in progress" }, st) := by
  unfold handleReview
  rw [if_pos h]

/-- Witness for C6 at a concrete busy state and concrete environment. -/
theorem handleReview_busy_rejected_witness :
    handleReview { page := {}, modelCall := fun _ => Except.ok "" } "all" {}
        { isReviewing := true } =
      ({ success := false, error := some "Review already in progress" },
       { isReviewing := true }) :=
  handleReview_busy_rejected _ _ _ _ rfl

/-! ## C3 — the response parser is total and well-shaped -/

/-- C3: for every input string (the model reply is untrusted), the response
parser terminates without an exception — it is a total function — and its
result always has an array `issues` field and a `summary` field that is
either `null` or the (truthy) parsed summary value. -/
theorem parseReviewResponse_total_shape (response : String) :
    (parseReviewResponse response).issues.isArr = true ∧
      ((parseReviewResponse response).summary = Json.null ∨
        (parseReviewResponse response).summary.truthy = true) := by
  unfold parseReviewResponse parseReviewResponseT arrSpanAttempt
  dsimp only
  split
  next parsed hp =>
    split
    next ho => exact ⟨issuesCoerce_isArr _, jsOrNull_spec _⟩
    next ho =>
      split
      next ha => exact ⟨ha, Or.inl rfl⟩
      next ha => exact ⟨rfl, Or.inl rfl⟩
  next hp =>
    split
    next span hs =>
      split
      next parsed hp2 => exact ⟨issuesCoerce_isArr _, jsOrNull_spec _⟩
      next hp2 =>
        split
        next span2 hs2 =>
          split
          next parsed hp3 =>
            obtain ⟨tail, htail⟩ := spanFrom_shape _ _ _ _ hs2
            exact ⟨Json_parse_bracket_isArr _ tail _ (by rw [htail]) hp3, Or.inl rfl⟩
          next hp3 => exact ⟨rfl, Or.inl rfl⟩
        next hs2 => exact ⟨rfl, Or.inl rfl⟩
    next hs =>
      split
      next span2 hs2 =>
        split
        next parsed hp3 =>
          obtain ⟨tail, htail⟩ := spanFrom_shape _ _ _ _ hs2
          exact ⟨Json_parse_bracket_isArr _ tail _ (by rw [htail]) hp3, Or.inl rfl⟩
        next hp3 => exact ⟨rfl, Or.inl rfl⟩
      next hs2 => exact ⟨rfl, Or.inl rfl⟩

/-! ## C9 — strict parse of a non-object, non-array value -/

/-- C9: when the strict (step-1) parse of the input — after the trim and
fence-strip of the parser's first step — succeeds with a value that is
neither an object nor an array (a number, string, boolean or `null`), the
parser returns `\x7b summary: null, issues: [] \x7d` from the strict
branch (`ParseStep.strictOther`), never reaching the span-extraction
recovery steps. -/
theorem parseReviewResponse_scalar_strict (response : String) (v : Json)
    (h1 : Json.parse (cleanFences (jsTrim response)) = some v)
    (h2 : v.isObj = false) (h3 : v.isArr = false) :
    parseReviewResponseT response =
      ({ summary := Json.null, issues := Json.arr [] }, ParseStep.strictOther) := by
  unfold parseReviewResponseT
  dsimp only
  rw [h1]
  dsimp only
  rw [if_neg (by simp [h2]), if_neg (by simp [h3])]

/-- Witness for C9 at the input `"42"`, which parses strictly to the
number 42. -/
theorem parseReviewResponse_scalar_strict_witness :
    parseReviewResponseT "42" =
      ({ summary := Json.null, issues := Json.arr [] }, ParseStep.strictOther) :=
  parseReviewResponse_scalar_strict "42" (Json.num 42) (by rfl) rfl rfl

/-! ## C4 — prose-wrapped issue array -/

/-- The claim's scenario input, completed to concrete JSON: prose around a
single-element issue array. -/
def c4Input : String := "Here you go: [\x7b\"line\":3,\"severity\":\"warning\"\x7d] Thanks!"

/-- The issue object embedded in `c4Input`. -/
def c4EmbeddedIssue : Json := Json.obj [("line", Json.num 3), ("severity", Json.str "warning")]

/-- The same scenario with two issue objects in the array. -/
def c4InputTwo : String := "Here you go: [\x7b\"line\":3\x7d,\x7b\"line\":4\x7d] Thanks!"

/-- Counterexample to C4: on the claim's input the object-span regex
(`/\x7b[\s\S]*\x7d/`, tried before the array span) matches the issue
object itself, which parses, so the parser returns from the object-span
branch with empty `issues` — not the embedded one-element array the claim
requires. -/
theorem c4_objSpan_swallows :
    parseReviewResponseT c4Input =
      ({ summary := Json.null, issues := Json.arr [] }, ParseStep.objSpan) ∧
    (Json.arr [] : Json) ≠ Json.arr [c4EmbeddedIssue] := by
  refine ⟨by rfl, ?_⟩
  intro h
  injection h with h'
  exact List.noConfusion h'

/-- C4 (amended): the object-span recovery is attempted first on the raw
text; for the claim's single-issue input its span (first `\x7b` to last
`\x7d`) is the issue object itself, which parses, so the result has
summary `null` and empty `issues`.  The array-span recovery yields the
embedded issues array only when the object-span parse also fails, e.g.
when the array holds two issue objects. -/
theorem c4_amended_recovery :
    parseReviewResponseT c4InputTwo =
      ({ summary := Json.null,
         issues := Json.arr [Json.obj [("line", Json.num 3)], Json.obj [("line", Json.num 4)]] },
       ParseStep.arrSpan) ∧
    parseReviewResponseT c4Input =
      ({ summary := Json.null, issues := Json.arr [] }, ParseStep.objSpan) :=
  ⟨by rfl, by rfl⟩

/-! ## C10 — severity bucketing -/

/-- Counterexample to C10: a `null` issue element — producible by the
model, e.g. the reply `\x7b"issues":[null]\x7d` — makes the severity read
throw a `TypeError`, so that issue is counted in no bucket at all (in
particular not in `suggestions`), and the tally aborts. -/
theorem countSeverities_null_throws :
    countSeverities {} [Json.null] = Except.error () ∧
    countSeverities {} [Json.null] ≠ Except.ok { suggestions := 1 } := by
  refine ⟨by rfl, ?_⟩
  intro h
  rw [show countSeverities {} [Json.null] = Except.error () from rfl] at h
  exact Except.noConfusion h

/-- A value strictly equal to one string literal is not strictly equal to a
different one. -/
theorem jsonStrEq_unique (j : Json) (a b : String) (h : jsonStrEq j a = true) (hne : a ≠ b) :
    jsonStrEq j b = false := by
  cases j with
  | str t =>
    simp only [jsonStrEq, decide_eq_true_eq] at h
    simp only [jsonStrEq, decide_eq_false_iff_not]
    rw [h]
    exact hne
  | null => rfl
  | bool b2 => rfl
  | num q => rfl
  | arr xs => rfl
  | obj ms => rfl

/-- C10 (amended): over any issue list with no `null` element, the tally
succeeds and buckets partition the issues: `critical` counts severity
`=== 'critical'`, `warnings` counts `=== 'warning'`, and every other
issue — unknown severity strings, non-string severities, objects with no
severity field, and non-object issues — lands in `suggestions`; the three
counts sum to the number of issues.  (A `null` element instead raises a
`TypeError`, see the counterexample.) -/
theorem countSeverities_partition (stats : ReviewStats) (issues : List Json)
    (h : ∀ i ∈ issues, i ≠ Json.null) :
    ∃ stats', countSeverities stats issues = Except.ok stats' ∧
      stats'.critical = stats.critical +
        issues.countP (fun i => jsonStrEq (i.getField "severity") "critical") ∧
      stats'.warnings = stats.warnings +
        issues.countP (fun i => jsonStrEq (i.getField "severity") "warning") ∧
      stats'.suggestions = stats.suggestions +
        issues.countP (fun i => !(jsonStrEq (i.getField "severity") "critical") &&
          !(jsonStrEq (i.getField "severity") "warning")) ∧
      issues.countP (fun i => jsonStrEq (i.getField "severity") "critical") +
        issues.countP (fun i => jsonStrEq (i.getField "severity") "warning") +
        issues.countP (fun i => !(jsonStrEq (i.getField "severity") "critical") &&
          !(jsonStrEq (i.getField "severity") "warning")) = issues.length := by
  induction issues generalizing stats with
  | nil => exact ⟨stats, rfl, by simp, by simp, by simp, by simp⟩
  | cons i rest ih =>
    have hi : i ≠ Json.null := h i (List.mem_cons_self _ _)
    have hrest : ∀ j ∈ rest, j ≠ Json.null := fun j hj => h j (List.mem_cons_of_mem _ hj)
    have hsev : severityOf i = Except.ok (i.getField "severity") := by
      cases i
      · exact absurd rfl hi
      all_goals rfl
    simp only [countSeverities, hsev]
    by_cases hc : jsonStrEq (i.getField "severity") "critical" = true
    · rw [if_pos hc]
      have hwf := jsonStrEq_unique (i.getField "severity") "critical" "warning" hc (by decide)
      obtain ⟨stats', hok, h1, h2, h3, h4⟩ := ih { stats with critical := stats.critical + 1 } hrest
      dsimp only at h1 h2 h3
      refine ⟨stats', hok, ?_, ?_, ?_, ?_⟩
      all_goals simp [List.countP_cons, hc, hwf]
      all_goals omega
    · rw [if_neg hc]
      by_cases hw : jsonStrEq (i.getField "severity") "warning" = true
      · rw [if_pos hw]
        obtain ⟨stats', hok, h1, h2, h3, h4⟩ := ih { stats with warnings := stats.warnings + 1 } hrest
        dsimp only at h1 h2 h3
        refine ⟨stats', hok, ?_, ?_, ?_, ?_⟩
        all_goals simp [List.countP_cons, hc, hw]
        all_goals omega
      · rw [if_neg hw]
        obtain ⟨stats', hok, h1, h2, h3, h4⟩ := ih { stats with suggestions := stats.suggestions + 1 } hrest
        dsimp only at h1 h2 h3
        refine ⟨stats', hok, ?_, ?_, ?_, ?_⟩
        all_goals simp [List.countP_cons, hc, hw]
        all_goals omega

/-- A concrete issue list exercising the C10 buckets: a critical issue, an
unknown severity, a non-object issue, and an object with no severity. -/
def c10Issues : List Json :=
  [Json.obj [("severity", Json.str "critical")],
   Json.obj [("severity", Json.str "odd")],
   Json.str "x",
   Json.obj []]

/-- Witness for C10 (amended) at `c10Issues` (no `null` element). -/
theorem countSeverities_partition_witness :
    ∃ stats', countSeverities {} c10Issues = Except.ok stats' ∧
      stats'.critical = ReviewStats.critical {} +
        c10Issues.countP (fun i => jsonStrEq (i.getField "severity") "critical") ∧
      stats'.warnings = ReviewStats.warnings {} +
        c10Issues.countP (fun i => jsonStrEq (i.getField "severity") "warning") ∧
      stats'.suggestions = ReviewStats.suggestions {} +
        c10Issues.countP (fun i => !(jsonStrEq (i.getField "severity") "critical") &&
          !(jsonStrEq (i.getField "severity") "warning")) ∧
      c10Issues.countP (fun i => jsonStrEq (i.getField "severity") "critical") +
        c10Issues.countP (fun i => jsonStrEq (i.getField "severity") "warning") +
        c10Issues.countP (fun i => !(jsonStrEq (i.getField "severity") "critical") &&
          !(jsonStrEq (i.getField "severity") "warning")) = c10Issues.length :=
  countSeverities_partition {} c10Issues (by
    intro i hi
    simp only [c10Issues, List.mem_cons, List.not_mem_nil, or_false] at hi
    rcases hi with rfl | rfl | rfl | rfl <;> simp)

/-! ## C5 — remote fetcher bounds -/

/-- Loop invariant for `adoChangesLoop`: starting from an accumulator
within the file limit whose records all have non-empty new content within
the size limit, the loop's result stays within the limit and keeps the
record property (records are appended only after the emptiness and size
tests). -/
theorem adoLoop_bound (fetch : String → String → String) (src tgt : Option String)
    (changes : List ChangeEntry) :
    ∀ diffs : List ChangeRecord, diffs.length ≤ MAX_FILES →
      (∀ r ∈ diffs, r.newContent ≠ "" ∧ r.newContent.length ≤ MAX_FILE_SIZE) →
      (adoChangesLoop fetch src tgt changes diffs).length ≤ MAX_FILES ∧
        ∀ r ∈ adoChangesLoop fetch src tgt changes diffs,
          r.newContent ≠ "" ∧ r.newContent.length ≤ MAX_FILE_SIZE := by
  induction changes with
  | nil =>
    intro diffs h1 h2
    simp only [adoChangesLoop]
    exact ⟨h1, h2⟩
  | cons change rest ih =>
    intro diffs h1 h2
    simp only [adoChangesLoop]
    by_cases hfull : diffs.length ≥ MAX_FILES
    · rw [if_pos hfull]; exact ⟨h1, h2⟩
    rw [if_neg hfull]
    by_cases hfold : change.isFolder = true
    · rw [if_pos hfold]; exact ih diffs h1 h2
    rw [if_neg hfold]
    by_cases hdel : jsOrStr change.changeType "edit" = "delete"
    · rw [if_pos hdel]; exact ih diffs h1 h2
    rw [if_neg hdel]
    cases hpath : change.path with
    | none => exact ih diffs h1 h2
    | some filePath =>
      try dsimp only
      by_cases hempty : filePath = ""
      · rw [if_pos hempty]; exact ih diffs h1 h2
      rw [if_neg hempty]
      by_cases hbin : (binaryExtensions.any fun ext => strEndsWith (jsToLower filePath) ext) = true
      · rw [if_pos hbin]; exact ih diffs h1 h2
      rw [if_neg hbin]
      try dsimp only
      cases src with
      | some sc =>
        try dsimp only
        by_cases hsize : (fetch filePath sc).length > MAX_FILE_SIZE
        · rw [if_pos hsize]
          exact ih diffs h1 h2
        rw [if_neg hsize]
        try dsimp only
        by_cases hnc : fetch filePath sc ≠ ""
        · rw [if_pos hnc]
          refine ih _ ?_ ?_
          · simp only [List.length_append, List.length_singleton]
            omega
          · intro r hr
            rcases List.mem_append.mp hr with hold | hnew
            · exact h2 r hold
            · rcases List.mem_singleton.mp hnew with rfl
              exact ⟨hnc, by dsimp only; omega⟩
        · rw [if_neg hnc]
          exact ih diffs h1 h2
      | none =>
        exact ih diffs h1 h2

/-- C5: for every change list and every per-file fetch oracle (so for all
of `extractFromADOApi`'s environments), the fetcher returns at most
`MAX_FILES = 15` records, and every returned record has non-empty
`newContent` of length at most `MAX_FILE_SIZE = 50000`. -/
theorem extractFromADOApi_bounds (env : PageEnv) :
    (extractFromADOApi env).length ≤ 15 ∧
      ∀ r ∈ extractFromADOApi env, r.newContent ≠ "" ∧ r.newContent.length ≤ 50000 := by
  unfold extractFromADOApi
  cases hout : env.apiOutcome with
  | none => exact ⟨by simp, by simp⟩
  | some out =>
    obtain ⟨src, rest0⟩ := out
    obtain ⟨tgt, changes⟩ := rest0
    have hb := adoLoop_bound env.fetchContent src tgt changes [] (by simp [MAX_FILES]) (by simp)
    exact hb

/-- Concrete environment for the C5 witness: one ordinary change whose
fetched content is `"abc"`. -/
def c5Env : PageEnv :=
  { apiOutcome := some (some "src", some "tgt", [{ path := some "a.ts", changeType := some "edit" }]),
    fetchContent := fun _ _ => "abc" }

/-- The record the C5 witness environment produces. -/
def c5Record : ChangeRecord :=
  { filename := "a.ts", originalContent := "abc", newContent := "abc",
    changeType := "edit", isApiDiff := true }

/-- Witness for C5 at `c5Env`, discharging the membership hypothesis at
the single returned record. -/
theorem extractFromADOApi_bounds_witness :
    (extractFromADOApi c5Env).length ≤ 15 ∧
      (c5Record.newContent ≠ "" ∧ c5Record.newContent.length ≤ 50000) :=
  ⟨(extractFromADOApi_bounds c5Env).1,
   (extractFromADOApi_bounds c5Env).2 c5Record (by
     rw [show extractFromADOApi c5Env = [c5Record] from rfl]
     exact List.mem_singleton.mpr rfl)⟩

/-! ## C8 — addition-only prompt payload -/

/-- The payload C8 specifies for addition-only mode, written from the
claim's words: the newline-joined contents of `additions` whenever
`additions` is present and non-empty, otherwise the record's raw
`content`, truncated to at most 15000 characters. -/
def additionPayload (diff : ChangeRecord) : String :=
  substr0
    (match diff.additions with
     | some adds =>
       if adds.length > 0 then String.intercalate "\n" (adds.map (fun a => a.content))
       else diff.content
     | none => diff.content)
    15000

/-- Prepending on the left preserves being an infix. -/
theorem infix_append_left_of {l y : List Char} (x : List Char) (h : l <:+: y) :
    l <:+: x ++ y := by
  obtain ⟨s, t, he⟩ := h
  exact ⟨x ++ s, t, by rw [← he]; simp [List.append_assoc]⟩

/-- C8: for every non-API-sourced record and every settings value, the
addition-only prompt embeds exactly the claim's payload — the
newline-joined `additions` contents when present and non-empty, else the
raw `content` — truncated to at most 15000 characters: the truncated
payload is no longer than 15000 and occurs verbatim inside the built
prompt. -/
theorem buildReviewPrompt_addition_payload (diff : ChangeRecord) (settings : ReviewSettings)
    (h : diff.isApiDiff = false) :
    (additionPayload diff).length ≤ 15000 ∧
      (additionPayload diff).data <:+: (buildReviewPrompt diff settings).data := by
  constructor
  · simp only [additionPayload, substr0, String.length]
    simp [List.length_take]
  · unfold buildReviewPrompt
    rw [if_neg (by simp [h])]
    dsimp only
    simp only [String.data_append, List.append_assoc]
    refine infix_append_left_of _ (infix_append_left_of _ (infix_append_left_of _
      (infix_append_left_of _ (infix_append_left_of _ ?_))))
    exact ⟨[], _, rfl⟩

/-- Concrete record for the C8 witness. -/
def c8Diff : ChangeRecord := { filename := "f.ts", content := "let x = 1" }

/-- Witness for C8 at `c8Diff` (a DOM record; `isApiDiff` is false) and
default settings. -/
theorem buildReviewPrompt_addition_payload_witness :
    (additionPayload c8Diff).length ≤ 15000 ∧
      (additionPayload c8Diff).data <:+: (buildReviewPrompt c8Diff {}).data :=
  buildReviewPrompt_addition_payload c8Diff {} rfl

/-! ## C1 and C2 — the extraction strategy chain -/

/-- The selection strategy's output as a function of scope and page (spec
item 1: applies only when scope is `selected` and the live selection is
non-empty after trimming). -/
def specSelectionOut (ty : String) (env : PageEnv) : List ChangeRecord :=
  if ty = "selected" ∧ env.selection ≠ "" ∧ jsTrim env.selection ≠ "" then
    [selectionRecord env.selection]
  else []

/-- The eight strategy outputs in the claim's fixed priority order
(selection, remote API, side-by-side, modern viewer, file-diff containers,
Monaco editor, generic code blocks, visible diff area), with no scope
gating — the reading the claim asserts. -/
def specStrategyOutputs (ty : String) (env : PageEnv) : List (List ChangeRecord) :=
  [specSelectionOut ty env, extractFromADOApi env,
   env.sideBySideDiffs, env.modernViewerDiffs, env.fileDiffContainerDiffs,
   env.monacoEditorDiffs, env.genericCodeBlockDiffs, env.visibleDiffAreaDiffs]

/-- First non-empty output of an ordered list of strategy outputs (the
claim's chain contract), empty when all are empty. -/
def firstNonEmpty : List (List ChangeRecord) → List ChangeRecord
  | [] => []
  | l :: ls => if l.length > 0 then l else firstNonEmpty ls

/-- The strategies the source actually consults, in order, with their
outputs: the selection strategy only when scope is `selected`, the remote
API strategy only when it is not, then the six DOM strategies. -/
def gatedStrategies (ty : String) (env : PageEnv) : List (Strat × List ChangeRecord) :=
  (if ty = "selected" then [(Strat.selection, specSelectionOut ty env)] else []) ++
  (if ty ≠ "selected" then [(Strat.remoteApi, extractFromADOApi env)] else []) ++
  [(Strat.sideBySide, env.sideBySideDiffs), (Strat.modernViewer, env.modernViewerDiffs),
   (Strat.fileDiffContainers, env.fileDiffContainerDiffs),
   (Strat.monacoEditor, env.monacoEditorDiffs),
   (Strat.genericCodeBlocks, env.genericCodeBlockDiffs),
   (Strat.visibleDiffArea, env.visibleDiffAreaDiffs)]

/-- The generic first-non-empty chain driver over tagged strategies:
returns the scope-resolved output of the first non-empty strategy together
with the trace of strategies evaluated (the prefix through the winner). -/
def chainResult (ty : String) : List (Strat × List ChangeRecord) → List ChangeRecord × List Strat
  | [] => ([], [])
  | (s, out) :: rest =>
    if out.length > 0 then (scopeResolve ty out, [s])
    else
      let pr := chainResult ty rest
      (pr.1, s :: pr.2)

/-- The strategies evaluated by the chain: all of them up to and including
the first with non-empty output, or all when every output is empty. -/
def evaluatedPrefix : List (Strat × List ChangeRecord) → List Strat
  | [] => []
  | (s, out) :: rest => if out.length > 0 then [s] else s :: evaluatedPrefix rest

/-- The value component of the chain driver is the scope-resolved first
non-empty output. -/
theorem chainResult_fst (ty : String) (entries : List (Strat × List ChangeRecord)) :
    (chainResult ty entries).1 = scopeResolve ty (firstNonEmpty (entries.map Prod.snd)) := by
  induction entries with
  | nil => simp [chainResult, firstNonEmpty, scopeResolve]
  | cons e rest ih =>
    obtain ⟨s, out⟩ := e
    by_cases hlen : out.length > 0
    · simp [chainResult, firstNonEmpty, hlen]
    · simp [chainResult, firstNonEmpty, hlen, ih]

/-- The trace component of the chain driver is the evaluated prefix. -/
theorem chainResult_snd (ty : String) (entries : List (Strat × List ChangeRecord)) :
    (chainResult ty entries).2 = evaluatedPrefix entries := by
  induction entries with
  | nil => rfl
  | cons e rest ih =>
    obtain ⟨s, out⟩ := e
    by_cases hlen : out.length > 0
    · simp [chainResult, evaluatedPrefix, hlen]
    · simp [chainResult, evaluatedPrefix, hlen, ih]

/-- Every strategy in the chain trace is one of the consulted entries. -/
theorem mem_evaluatedPrefix (entries : List (Strat × List ChangeRecord)) (s : Strat)
    (h : s ∈ evaluatedPrefix entries) : s ∈ entries.map Prod.fst := by
  induction entries with
  | nil => simp [evaluatedPrefix] at h
  | cons e rest ih =>
    obtain ⟨s0, out⟩ := e
    by_cases hlen : out.length > 0
    · simp [evaluatedPrefix, hlen] at h
      simp [h]
    · simp [evaluatedPrefix, hlen] at h
      rcases h with rfl | h
      · simp
      · simp [ih h]

/-- The source's `extractDiffs` is the generic first-non-empty chain over
the gated strategy list: this is the workhorse shared by the chain
claims. -/
theorem extractDiffsT_eq_chain (ty : String) (env : PageEnv) :
    extractDiffsT ty env = chainResult ty (gatedStrategies ty env) := by
  by_cases hsel : ty = "selected"
  · subst hsel
    by_cases hcond : "selected" = "selected" ∧ env.selection ≠ "" ∧ jsTrim env.selection ≠ ""
    · unfold extractDiffsT
      rw [if_pos hcond]
      unfold gatedStrategies specSelectionOut
      rw [if_pos rfl, if_pos hcond, if_neg (by simp)]
      simp [chainResult, scopeResolve]
    · unfold extractDiffsT gatedStrategies specSelectionOut
      rw [if_neg hcond, if_pos rfl, if_neg hcond, if_neg (by simp)]
      simp only [if_pos rfl, if_neg (show ¬("selected" : String) ≠ "selected" by simp)]
      by_cases h3 : env.sideBySideDiffs.length > 0
      · simp [chainResult, h3]
      by_cases h4 : env.modernViewerDiffs.length > 0
      · simp [chainResult, h3, h4]
      by_cases h5 : env.fileDiffContainerDiffs.length > 0
      · simp [chainResult, h3, h4, h5]
      by_cases h6 : env.monacoEditorDiffs.length > 0
      · simp [chainResult, h3, h4, h5, h6]
      by_cases h7 : env.genericCodeBlockDiffs.length > 0
      · simp [chainResult, h3, h4, h5, h6, h7]
      by_cases h8 : env.visibleDiffAreaDiffs.length > 0
      · simp [chainResult, h3, h4, h5, h6, h7, h8]
      · simp [chainResult, h3, h4, h5, h6, h7, h8]
  · unfold extractDiffsT gatedStrategies specSelectionOut
    rw [if_neg (by simp [hsel]), if_neg hsel, if_pos hsel]
    simp only [if_neg hsel]
    by_cases h2 : (extractFromADOApi env).length > 0
    · simp [chainResult, hsel, h2]
    by_cases h3 : env.sideBySideDiffs.length > 0
    · simp [chainResult, hsel, h2, h3]
    by_cases h4 : env.modernViewerDiffs.length > 0
    · simp [chainResult, hsel, h2, h3, h4]
    by_cases h5 : env.fileDiffContainerDiffs.length > 0
    · simp [chainResult, hsel, h2, h3, h4, h5]
    by_cases h6 : env.monacoEditorDiffs.length > 0
    · simp [chainResult, hsel, h2, h3, h4, h5, h6]
    by_cases h7 : env.genericCodeBlockDiffs.length > 0
    · simp [chainResult, hsel, h2, h3, h4, h5, h6, h7]
    by_cases h8 : env.visibleDiffAreaDiffs.length > 0
    · simp [chainResult, hsel, h2, h3, h4, h5, h6, h7, h8]
    · simp [chainResult, hsel, h2, h3, h4, h5, h6, h7, h8]

/-- Records for the chain counterexamples. -/
def recA : ChangeRecord := { filename := "a.ts", content := "aaa" }

/-- Second record for the chain counterexamples. -/
def recB : ChangeRecord := { filename := "b.ts", content := "bbb" }

/-- Page for the C1 counterexample: the side-by-side strategy yields two
records, everything else is empty. -/
def c1Env : PageEnv := { sideBySideDiffs := [recA, recB] }

/-- Counterexample to C1: with scope `current` and a winning strategy
producing two records, `extractDiffs` returns only the first record, not
"the output of the first strategy that produces a non-empty sequence" —
scope resolution truncates the winning output. -/
theorem extractDiffs_current_not_full_output :
    extractDiffs "current" c1Env ≠ firstNonEmpty (specStrategyOutputs "current" c1Env) := by
  intro h
  have h2 : ([recA] : List ChangeRecord) = [recA, recB] := h
  have h3 := congrArg List.length h2
  simp at h3

/-- C1 (amended): for every scope and page, `extractDiffs` evaluates the
strategies in the fixed priority order *gated by scope* — the selection
strategy only for scope `selected`, the remote API strategy only for the
other scopes, then the six DOM strategies — stops at the first strategy
with a non-empty output and returns that output through scope resolution
(`current` truncates it to its first record), and the strategies whose
code runs are exactly the prefix up to and including the winner, so no
lower-priority strategy is evaluated once one has succeeded; if every
consulted strategy returns empty, the result is the empty sequence (and
every strategy was consulted). -/
theorem extractDiffs_first_nonempty_wins (ty : String) (env : PageEnv) :
    extractDiffs ty env =
      scopeResolve ty (firstNonEmpty ((gatedStrategies ty env).map Prod.snd)) ∧
    (extractDiffsT ty env).2 = evaluatedPrefix (gatedStrategies ty env) := by
  have h := extractDiffsT_eq_chain ty env
  constructor
  · rw [extractDiffs, h, chainResult_fst]
  · rw [h, chainResult_snd]

/-- Page for the C2 counterexample: empty selection, but the side-by-side
strategy finds a record. -/
def c2Env : PageEnv := { selection := "", sideBySideDiffs := [recA] }

/-- Counterexample to C2: with scope `selected` and an empty selection the
chain does *not* return the empty sequence — it falls through to the DOM
strategies (the side-by-side strategy's code runs and its record is
returned).  Only the remote API strategy is gated on the scope. -/
theorem extractDiffs_selected_empty_falls_through :
    extractDiffs "selected" c2Env ≠ [] ∧
      Strat.sideBySide ∈ (extractDiffsT "selected" c2Env).2 := by
  constructor
  · intro h
    have h2 : ([recA] : List ChangeRecord) = [] := h
    have h3 := congrArg List.length h2
    simp at h3
  · show Strat.sideBySide ∈ [Strat.selection, Strat.sideBySide]
    simp

/-- C2 (amended): for scope `selected`, a non-empty (after trimming)
selection is returned verbatim as the single record `Selected Code` and no
other strategy is consulted; when the selection is empty, the remote API
strategy (2) is still never invoked, but the DOM-scanning strategies (3-8)
are evaluated as fallback in priority order, the chain returning the first
non-empty output (empty only when all six are empty). -/
theorem extractDiffs_selected_scope (env : PageEnv) :
    (jsTrim env.selection ≠ "" →
      extractDiffsT "selected" env = ([selectionRecord env.selection], [Strat.selection])) ∧
    (jsTrim env.selection = "" →
      Strat.remoteApi ∉ (extractDiffsT "selected" env).2 ∧
      extractDiffs "selected" env =
        firstNonEmpty [env.sideBySideDiffs, env.modernViewerDiffs,
          env.fileDiffContainerDiffs, env.monacoEditorDiffs,
          env.genericCodeBlockDiffs, env.visibleDiffAreaDiffs]) := by
  have h := extractDiffsT_eq_chain "selected" env
  constructor
  · intro hne
    have hsel : env.selection ≠ "" := by
      intro he
      exact hne (by rw [he]; rfl)
    unfold extractDiffsT
    rw [if_pos ⟨rfl, hsel, hne⟩]
  · intro hemp
    have hso : specSelectionOut "selected" env = [] := by
      simp [specSelectionOut, hemp]
    have hgated : gatedStrategies "selected" env =
        (Strat.selection, ([] : List ChangeRecord)) ::
          [(Strat.sideBySide, env.sideBySideDiffs), (Strat.modernViewer, env.modernViewerDiffs),
           (Strat.fileDiffContainers, env.fileDiffContainerDiffs),
           (Strat.monacoEditor, env.monacoEditorDiffs),
           (Strat.genericCodeBlocks, env.genericCodeBlockDiffs),
           (Strat.visibleDiffArea, env.visibleDiffAreaDiffs)] := by
      simp [gatedStrategies, hso]
    constructor
    · intro hmem
      rw [h, chainResult_snd] at hmem
      have hfst := mem_evaluatedPrefix _ _ hmem
      rw [hgated] at hfst
      simp at hfst
    · rw [extractDiffs, h, chainResult_fst, hgated]
      rw [show scopeResolve "selected" = id from by
        funext l; simp [scopeResolve]]
      simp [firstNonEmpty]

/-- Page with a non-empty selection, for the C2 witness. -/
def c2EnvSel : PageEnv := { selection := "let x" }

/-- Witness for C2 (amended) at concrete pages: a non-empty selection is
returned as the single record, and with an empty selection the remote API
strategy is skipped while the DOM fallback runs. -/
theorem extractDiffs_selected_scope_witness :
    (extractDiffsT "selected" c2EnvSel = ([selectionRecord "let x"], [Strat.selection])) ∧
    (Strat.remoteApi ∉ (extractDiffsT "selected" c2Env).2 ∧
      extractDiffs "selected" c2Env =
        firstNonEmpty [c2Env.sideBySideDiffs, c2Env.modernViewerDiffs,
          c2Env.fileDiffContainerDiffs, c2Env.monacoEditorDiffs,
          c2Env.genericCodeBlockDiffs, c2Env.visibleDiffAreaDiffs]) :=
  ⟨(extractDiffs_selected_scope c2EnvSel).1 (by decide),
   (extractDiffs_selected_scope c2Env).2 rfl⟩

/-! ## C7 — stats aggregation invariant -/

/-- Bucket conservation of one `countSeverities` run: a successful tally
adds exactly one bucket increment per issue. -/
theorem countSeverities_sum (issues : List Json) :
    ∀ (stats stats' : ReviewStats), countSeverities stats issues = Except.ok stats' →
      stats'.critical + stats'.warnings + stats'.suggestions =
        stats.critical + stats.warnings + stats.suggestions + issues.length := by
  induction issues with
  | nil =>
    intro s s' h
    simp only [countSeverities, Except.ok.injEq] at h
    subst h
    simp
  | cons i rest ih =>
    intro s s' h
    simp only [countSeverities] at h
    cases hsev : severityOf i with
    | error e => rw [hsev] at h; exact Except.noConfusion h
    | ok sev =>
      rw [hsev] at h
      dsimp only at h
      by_cases hc : jsonStrEq sev "critical" = true
      · rw [if_pos hc] at h
        have hr := ih _ _ h
        dsimp only at hr
        simp only [List.length_cons]
        omega
      · rw [if_neg hc] at h
        by_cases hw : jsonStrEq sev "warning" = true
        · rw [if_pos hw] at h
          have hr := ih _ _ h
          dsimp only at hr
          simp only [List.length_cons]
          omega
        · rw [if_neg hw] at h
          have hr := ih _ _ h
          dsimp only at hr
          simp only [List.length_cons]
          omega

/-- The number of issues one record contributes: the length of the parsed
reply's (coerced) issues array when the model call succeeds, `0` when it
fails (a failing call aborts the pass, so the value is never used on the
success path for a failing record). -/
def recordIssueCount (env : Env) (settings : ReviewSettings) (diff : ChangeRecord) : Nat :=
  match env.modelCall (buildReviewPrompt diff settings) with
  | Except.ok response =>
    (if (parseReviewResponse response).issues.truthy then (parseReviewResponse response).issues
     else Json.arr []).elems.length
  | Except.error _ => 0

/-- Bucket conservation across the review loop: a pass that completes adds
to the three buckets exactly the issue counts of its records. -/
theorem reviewLoop_sum (env : Env) (settings : ReviewSettings) (diffs : List ChangeRecord) :
    ∀ (stats : ReviewStats) (total : Nat) (st : ScriptState)
      (stats' : ReviewStats) (total' : Nat) (st' : ScriptState),
      reviewLoop env settings diffs stats total st = Except.ok (stats', total', st') →
      stats'.critical + stats'.warnings + stats'.suggestions =
        stats.critical + stats.warnings + stats.suggestions +
          (diffs.map (recordIssueCount env settings)).sum := by
  induction diffs with
  | nil =>
    intro s t st s' t' st' h
    simp only [reviewLoop, Except.ok.injEq, Prod.mk.injEq] at h
    obtain ⟨h1, _, _⟩ := h
    subst h1
    simp
  | cons d rest ih =>
    intro s t st s' t' st' h
    rw [show reviewLoop env settings (d :: rest) s t st =
        (match env.modelCall (buildReviewPrompt d settings) with
         | Except.error e => Except.error (e, st)
         | Except.ok response =>
           let reviewResult := parseReviewResponse response
           let issues := if reviewResult.issues.truthy then reviewResult.issues else Json.arr []
           if reviewResult.summary.truthy ∨ issues.elems.length > 0 then
             let totalIssues := t + issues.elems.length
             match countSeverities s issues.elems with
             | Except.error _ => Except.error (typeErrorMessage, st)
             | Except.ok stats' =>
               reviewLoop env settings rest stats' totalIssues (displayFor st d.filename reviewResult)
           else reviewLoop env settings rest s t st) from rfl] at h
    cases hmc : env.modelCall (buildReviewPrompt d settings) with
    | error e => rw [hmc] at h; exact Except.noConfusion h
    | ok response =>
      rw [hmc] at h
      dsimp only at h
      by_cases hcond : (parseReviewResponse response).summary.truthy = true ∨
          (if (parseReviewResponse response).issues.truthy then (parseReviewResponse response).issues
           else Json.arr []).elems.length > 0
      · rw [if_pos hcond] at h
        cases hcs : countSeverities s
            (if (parseReviewResponse response).issues.truthy then (parseReviewResponse response).issues
             else Json.arr []).elems with
        | error e => rw [hcs] at h; exact Except.noConfusion h
        | ok s1 =>
          rw [hcs] at h
          have hrest := ih _ _ _ _ _ _ h
          have hsum := countSeverities_sum _ _ _ hcs
          simp only [List.map_cons, List.sum_cons, recordIssueCount, hmc]
          omega
      · rw [if_neg hcond] at h
        have hrest := ih _ _ _ _ _ _ h
        have hlen : (if (parseReviewResponse response).issues.truthy then (parseReviewResponse response).issues
            else Json.arr []).elems.length = 0 := by
          rcases not_or.mp hcond with ⟨_, hB⟩
          omega
        simp only [List.map_cons, List.sum_cons, recordIssueCount, hmc]
        omega

/-- C7: at the end of every successful review pass — `handleReview`
returned `success: true`, so the loop completed over all extracted records
with no model-call or tally exception — the persisted stats satisfy
`critical + warnings + suggestions` = the total number of issues across
all processed records, i.e. the sum over the extracted records of the
length of each record's parsed issues array. -/
theorem handleReview_success_stats (env : Env) (ty : String) (settings : ReviewSettings)
    (st : ScriptState) (h : (handleReview env ty settings st).1.success = true) :
    ∃ stats, (handleReview env ty settings st).2.reviewStats = some stats ∧
      stats.critical + stats.warnings + stats.suggestions =
        ((extractDiffs ty env.page).map (recordIssueCount env settings)).sum := by
  unfold handleReview at h ⊢
  by_cases hbusy : st.isReviewing = true
  · rw [if_pos hbusy] at h
    simp at h
  rw [if_neg hbusy] at h ⊢
  try dsimp only at h ⊢
  by_cases hlen : (extractDiffs ty env.page).length = 0
  · rw [if_pos hlen] at h
    simp at h
  rw [if_neg hlen] at h ⊢
  try dsimp only at h ⊢
  split at h
  · simp at h
  · rename_i stats total st1 heq
    dsimp only [pushNote]
    refine ⟨stats, rfl, ?_⟩
    have hsum := reviewLoop_sum env settings _ _ _ _ _ _ _ heq
    dsimp only at hsum
    omega

/-- Environment for the C7 witness: one DOM record, and a model endpoint
that always answers with one critical and one unknown-severity issue. -/
def c7Env : Env :=
  { page := { sideBySideDiffs := [recA] },
    modelCall := fun _ =>
      Except.ok "\x7b\"issues\":[\x7b\"severity\":\"critical\"\x7d,\x7b\"severity\":\"what\"\x7d]\x7d" }

/-- Witness for C7 at `c7Env`: the pass succeeds and the persisted buckets
sum to the records' issue total. -/
theorem handleReview_success_stats_witness :
    ∃ stats, (handleReview c7Env "all" {} {}).2.reviewStats = some stats ∧
      stats.critical + stats.warnings + stats.suggestions =
        ((extractDiffs "all" c7Env.page).map (recordIssueCount c7Env {})).sum :=
  handleReview_success_stats c7Env "all" {} {} (by rfl)
